import Mathlib

/-!
Verification of the netvolmon counter-delta engine and device resolver.

The Go source is shallowly embedded: `DevStat`, `subChecked`, `Delta`,
`genDeltas` come from the main program file; the matcher cascade
(`globMatch`, `ipMatch`, `cidrIPMatch`, `globIPMatch`, `matchMe`,
`matchNetNames`, `expandDevList`) comes from finddev.go; the trailing
seconds-argument hack (`trailingHack`) comes from main.  Go maps are
embedded as association lists; Go's mutable string set (a
`map[string]struct{}`) is embedded as a duplicate-free `List String`,
with `set.add` as the idempotent `List.insert` and each matcher taking
the target set and returning the updated one, mirroring the in-place
mutation; `set.members`' `sort.Strings` is insertion sort.  External
library calls (glob matching, IP and CIDR parsing, hostname resolution,
strconv parsing) are abstracted as an explicit environment of pure
oracles.  The counter fields are uint64; they are embedded as `Nat`
because the only arithmetic performed on them is `b - a` guarded by
`a <= b`, which never overflows.  Times and durations are int64
nanosecond counts, embedded as `Int`, with explicit two's-complement
wrapping (`wrap64`) where the source converts a uint64 into a Duration
and multiplies.
-/

namespace Netvolmon

/-- time.Second in nanoseconds. -/
def second : Int := 1000000000

/-- A DevStat is a moment-in-time snapshot of a network device's counters
(`When` is the capture time in nanoseconds, the four counters are uint64). -/
structure DevStat where
  When : Int
  RBytes : Nat
  TBytes : Nat
  RPackets : Nat
  TPackets : Nat
deriving DecidableEq

/-- A DevDelta is the difference between two DevStats: same fields plus the
time difference `Delta`. -/
structure DevDelta where
  When : Int
  RBytes : Nat
  TBytes : Nat
  RPackets : Nat
  TPackets : Nat
  Delta : Int
deriving DecidableEq

/-- subChecked subtracts two numbers if it looks like there has not been a
counter overflow: `if a <= b { return b - a, good }; return 0, false`. -/
def subChecked (a b : Nat) (good : Bool) : Nat × Bool :=
  if a ≤ b then (b - a, good) else (0, false)

/-- Delta computes the change between two DevStats and an indicator of
whether it is good, threading the `good` flag through the four checked
subtractions exactly as the source does. -/
def Delta (oldst newst : DevStat) : DevDelta × Bool :=
  let r := subChecked oldst.RBytes newst.RBytes true
  let t := subChecked oldst.TBytes newst.TBytes r.2
  let p := subChecked oldst.RPackets newst.RPackets t.2
  let q := subChecked oldst.TPackets newst.TPackets p.2
  ({ When := newst.When, RBytes := r.1, TBytes := t.1, RPackets := p.1,
     TPackets := q.1, Delta := newst.When - oldst.When }, q.2)

/-- Stats: one DevStat per device name (a Go map, embedded as an
association list). -/
abbrev Stats := List (String × DevStat)

/-- Deltas: one DevDelta per device name. -/
abbrev Deltas := List (String × DevDelta)

/-- genDeltas: for each device of the new snapshot, skip it if its received
byte counter is zero (the source's "totally inactive" filter), skip it if it
is absent from the old snapshot, compute the delta and keep it only when
good. -/
def genDeltas (oldinfo newinfo : Stats) : Deltas :=
  newinfo.filterMap fun nv =>
    if nv.2.RBytes = 0 then none
    else
      match List.lookup nv.1 oldinfo with
      | none => none
      | some ov =>
        let dg := Delta ov nv.2
        if dg.2 then some (nv.1, dg.1) else none

/-- ipMap maps IP-address strings to the list of network devices carrying
that address. -/
abbrev IpMap := List (String × List String)

/-- Environment of external library calls used by the matchers: glob.Glob,
net.ParseIP followed by String() canonicalisation, net.ParseCIDR (returning
the test `cidr.Contains(net.ParseIP(k))` on IP strings), and the
os.Hostname/net.LookupHost chain of matchMe (none when either call fails). -/
structure MatchEnv where
  glob : String → String → Bool
  parseIP : String → Option String
  parseCIDR : String → Option (String → Bool)
  hostAddrs : Option (List String)

/-- set.addlist: add every element of a list to the target set. -/
def addlist (tgt : List String) (lst : List String) : List String :=
  lst.foldl (fun t k => t.insert k) tgt

/-- set.members: the members of a set as a sorted list (sort.Strings). -/
def members (s : List String) : List String :=
  List.insertionSort (· ≤ ·) s

/-- The device names of a snapshot (the keys of the Stats map). -/
def statsKeys (s : Stats) : List String :=
  s.map Prod.fst

/-- Stats.members: the sorted device names of a snapshot. -/
def statsMembers (s : Stats) : List String :=
  members (statsKeys s)

/-- globMatch: match a glob pattern against the names of network devices,
adding every matching device to the target set. -/
def globMatch (env : MatchEnv) (devpat : String) (netdevs : List String)
    (tgt : List String) : Bool × List String :=
  netdevs.foldl
    (fun acc dev => if env.glob devpat dev then (true, acc.2.insert dev) else acc)
    (false, tgt)

/-- ipMatch: parse the token as an IP address and add all devices carrying
exactly that address. -/
def ipMatch (env : MatchEnv) (devpat : String) (ipmap : IpMap)
    (tgt : List String) : Bool × List String :=
  match env.parseIP devpat with
  | none => (false, tgt)
  | some ipstr =>
    match List.lookup ipstr ipmap with
    | some v => (true, addlist tgt v)
    | none => (false, tgt)

/-- cidrIPMatch: parse the token as a CIDR and add the devices of every IP
address of the map contained in it. -/
def cidrIPMatch (env : MatchEnv) (devpat : String) (ipmap : IpMap)
    (tgt : List String) : Bool × List String :=
  match env.parseCIDR devpat with
  | none => (false, tgt)
  | some contains =>
    ipmap.foldl
      (fun acc kv => if contains kv.1 then (true, addlist acc.2 kv.2) else acc)
      (false, tgt)

/-- globIPMatch: apply a glob to the textual form of every known IP address
and add the devices of every match. -/
def globIPMatch (env : MatchEnv) (devpat : String) (ipmap : IpMap)
    (tgt : List String) : Bool × List String :=
  ipmap.foldl
    (fun acc kv => if env.glob devpat kv.1 then (true, addlist acc.2 kv.2) else acc)
    (false, tgt)

/-- matchMe: for the literal token "me", resolve the local hostname and add
the devices of every resolved address present in the IP map. -/
def matchMe (env : MatchEnv) (devpat : String) (ipmap : IpMap)
    (tgt : List String) : Bool × List String :=
  if devpat ≠ "me" then (false, tgt)
  else
    match env.hostAddrs with
    | none => (false, tgt)
    | some addrs =>
      addrs.foldl
        (fun acc a =>
          match List.lookup a ipmap with
          | some v => (true, addlist acc.2 v)
          | none => acc)
        (false, tgt)

/-- Site-name table: human name to CIDR string. -/
abbrev SiteNames := List (String × String)

/-- Group table: abstract name to list of site names. -/
abbrev MultiNames := List (String × List String)

/-- cslabNetNames: the compiled-in name-to-CIDR table. -/
def cslabNetNames : SiteNames :=
  [("net3", "128.100.3.0/24"), ("net5", "128.100.5.0/24"),
   ("dev2", "192.168.151.0/24"), ("core", "192.168.66.0/24"),
   ("iscsi1", "192.168.101.0/24"), ("iscsi2", "192.168.102.0/24"),
   ("red", "172.17.0.0/16"), ("vpn", "172.29.0.0/16"),
   ("wifi", "172.31.0.0/16")]

/-- cslabMultiNames: the compiled-in group table. -/
def cslabMultiNames : MultiNames :=
  [("iscsi", ["iscsi1", "iscsi2"]), ("blue", ["net3", "net5"])]

/-- The member loop of matchNetNames' group branch: walk the member names
in order; a member missing from the site table returns false immediately
with the target set as mutated so far; otherwise OR the member's
cidrIPMatch result into the running flag. -/
def groupLoop (sites : SiteNames) (env : MatchEnv) (ipmap : IpMap) :
    List String → Bool → List String → Bool × List String
  | [], matched, tgt => (matched, tgt)
  | name :: rest, matched, tgt =>
    match List.lookup name sites with
    | none => (false, tgt)
    | some cidr =>
      let mt := cidrIPMatch env cidr ipmap tgt
      groupLoop sites env ipmap rest (matched || mt.1) mt.2

/-- matchNetNames: a token that is a site name matches via its CIDR; a
token that is a group name matches if any member's CIDR matches (walking
members through `groupLoop`); anything else is no match. -/
def matchNetNames (sites : SiteNames) (groups : MultiNames) (env : MatchEnv)
    (devpat : String) (ipmap : IpMap) (tgt : List String) :
    Bool × List String :=
  match List.lookup devpat sites with
  | some cidr => cidrIPMatch env cidr ipmap tgt
  | none =>
    match List.lookup devpat groups with
    | some slist => groupLoop sites env ipmap slist false tgt
    | none => (false, tgt)

/-- One token of expandDevList's loop: the plain-name check followed by the
short-circuited cascade of the six matchers, `none` meaning the fatal
"doesn't seem to exist or match anything" exit. -/
def tryToken (sites : SiteNames) (groups : MultiNames) (env : MatchEnv)
    (ipmap : IpMap) (oldst : Stats) (devs : List String) (k : String)
    (nk : List String) : Option (List String) :=
  if (List.lookup k oldst).isSome then some (nk.insert k)
  else
    let r1 := matchMe env k ipmap nk
    if r1.1 then some r1.2 else
    let r2 := matchNetNames sites groups env k ipmap r1.2
    if r2.1 then some r2.2 else
    let r3 := globMatch env k devs r2.2
    if r3.1 then some r3.2 else
    let r4 := ipMatch env k ipmap r3.2
    if r4.1 then some r4.2 else
    let r5 := cidrIPMatch env k ipmap r4.2
    if r5.1 then some r5.2 else
    let r6 := globIPMatch env k ipmap r5.2
    if r6.1 then some r6.2 else
    none

/-- The token loop of expandDevList over the accumulating device set. -/
def processTokens (sites : SiteNames) (groups : MultiNames) (env : MatchEnv)
    (ipmap : IpMap) (oldst : Stats) (devs : List String) :
    List String → List String → Option (List String)
  | [], nk => some nk
  | k :: rest, nk =>
    match tryToken sites groups env ipmap oldst devs k nk with
    | none => none
    | some nk' => processTokens sites groups env ipmap oldst devs rest nk'

/-- expandDevList continued from an intermediate state: process the
remaining tokens, remove the excluded names, return the sorted members. -/
def expandDevListFrom (sites : SiteNames) (groups : MultiNames)
    (env : MatchEnv) (ipmap : IpMap) (oldst : Stats) (devs : List String)
    (devices : List String) (nk : List String) (exlist : List String) :
    Option (List String) :=
  match processTokens sites groups env ipmap oldst devs devices nk with
  | none => none
  | some nk' => some (members (exlist.foldl (fun s k => s.erase k) nk'))

/-- expandDevList: resolve the command-line tokens against the stats map
and the interface information, remove exclusions, and return the sorted
deduplicated device list (`none` is the fatal no-match exit). -/
def expandDevList (sites : SiteNames) (groups : MultiNames) (env : MatchEnv)
    (ipmap : IpMap) (devices : List String) (oldst : Stats)
    (exlist : List String) : Option (List String) :=
  expandDevListFrom sites groups env ipmap oldst (statsMembers oldst)
    devices [] exlist

/-- The trailing seconds-argument hack of main: when the last remaining
command-line argument parses (via strconv.ParseUint) as a nonzero integer,
it becomes the polling interval `time.Second * time.Duration(dur)` in
wrapping 64-bit arithmetic, and is dropped from the argument list, unless
the current interval differs both from the 1-second default and from the
new value, which is the fatal "given both -d and a trailing seconds
argument" exit (`none`). -/
def wrap64 (x : Int) : Int :=
  (x + 9223372036854775808) % 18446744073709551616 - 9223372036854775808

def trailingHack (parse : String → Option Nat) (args : List String)
    (duration : Int) : Option (List String × Int) :=
  match args.getLast? with
  | none => some (args, duration)
  | some lastTok =>
    match parse lastTok with
    | none => some (args, duration)
    | some dur =>
      if 0 < dur then
        let nd := wrap64 (second * wrap64 (dur : Int))
        if duration ≠ second ∧ duration ≠ nd then none
        else some (args.dropLast, nd)
      else some (args, duration)

/-- Whether a CIDR token matches at least one local IP address (the
match flag of `cidrIPMatch`, which is independent of the target set). -/
def cidrTest (env : MatchEnv) (c : String) (ipmap : IpMap) : Bool :=
  match env.parseCIDR c with
  | none => false
  | some contains => ipmap.any (fun kv => contains kv.1)

/-- Whether a site name exists in the table and its CIDR matches at least
one local IP address. -/
def siteTest (sites : SiteNames) (env : MatchEnv) (ipmap : IpMap)
    (n : String) : Bool :=
  match List.lookup n sites with
  | some c => cidrTest env c ipmap
  | none => false

/-- The target set produced by running `cidrIPMatch` over a list of member
names, in order, each member looked up in the site table (members missing
from the table contribute nothing). -/
def groupFold (sites : SiteNames) (env : MatchEnv) (ipmap : IpMap)
    (pre : List String) (tgt : List String) : List String :=
  pre.foldl
    (fun t n =>
      match List.lookup n sites with
      | some c => (cidrIPMatch env c ipmap t).2
      | none => t)
    tgt

/-- All device names appearing among the values of an IP map. -/
def ipVals : IpMap → List String
  | [] => []
  | kv :: rest => kv.2 ++ ipVals rest

theorem mem_addlist (tgt : List String) (l : List String) (x : String) :
    x ∈ addlist tgt l ↔ x ∈ tgt ∨ x ∈ l := by
  induction l generalizing tgt with
  | nil => simp [addlist]
  | cons a l ih =>
    simp only [addlist, List.foldl_cons] at ih ⊢
    rw [ih (tgt.insert a)]
    simp only [List.mem_insert_iff, List.mem_cons]
    tauto

theorem subset_addlist (tgt : List String) (l : List String) :
    tgt ⊆ addlist tgt l := by
  intro x hx
  exact (mem_addlist tgt l x).2 (Or.inl hx)

theorem addlist_subset (tgt : List String) (l : List String)
    (S : List String) (htgt : tgt ⊆ S) (hl : ∀ d ∈ l, d ∈ S) :
    addlist tgt l ⊆ S := by
  intro x hx
  rcases (mem_addlist tgt l x).1 hx with h | h
  · exact htgt h
  · exact hl x h

theorem addlist_nodup (tgt : List String) (l : List String)
    (h : tgt.Nodup) : (addlist tgt l).Nodup := by
  induction l generalizing tgt with
  | nil => exact h
  | cons a l ih =>
    simp only [addlist, List.foldl_cons] at ih ⊢
    exact ih (tgt.insert a) h.insert

/-- The match flag of the fold shared by `cidrIPMatch` and `globIPMatch`:
it is the starting flag ORed with whether any entry passes the test. -/
theorem foldOr_fst (p : String × List String → Bool) (l : IpMap)
    (b : Bool) (t : List String) :
    (l.foldl
      (fun acc kv => if p kv then (true, addlist acc.2 kv.2) else acc)
      (b, t)).1 = (b || l.any p) := by
  induction l generalizing b t with
  | nil => simp
  | cons kv l ih =>
    simp only [List.foldl_cons, List.any_cons]
    by_cases h : p kv = true
    · simp only [h, if_true]
      rw [ih]
      simp
    · rw [Bool.not_eq_true] at h
      simp only [h, Bool.false_eq_true, if_false]
      rw [ih]
      simp

/-- The fold shared by `cidrIPMatch` and `globIPMatch` only grows the
target set. -/
theorem foldOr_snd_superset (p : String × List String → Bool) (l : IpMap)
    (acc : Bool × List String) :
    acc.2 ⊆ (l.foldl
      (fun acc kv => if p kv then (true, addlist acc.2 kv.2) else acc)
      acc).2 := by
  induction l generalizing acc with
  | nil => simp
  | cons kv l ih =>
    simp only [List.foldl_cons]
    by_cases h : p kv = true
    · simp only [h, if_true]
      exact (subset_addlist acc.2 kv.2).trans (ih (true, addlist acc.2 kv.2))
    · rw [Bool.not_eq_true] at h
      simp only [h, Bool.false_eq_true, if_false]
      exact ih acc

theorem cidrIPMatch_fst (env : MatchEnv) (c : String) (ipmap : IpMap)
    (tgt : List String) :
    (cidrIPMatch env c ipmap tgt).1 = cidrTest env c ipmap := by
  unfold cidrIPMatch cidrTest
  cases env.parseCIDR c with
  | none => rfl
  | some contains =>
    simpa using foldOr_fst (fun kv => contains kv.1) ipmap false tgt

theorem cidrIPMatch_superset (env : MatchEnv) (c : String) (ipmap : IpMap)
    (tgt : List String) : tgt ⊆ (cidrIPMatch env c ipmap tgt).2 := by
  unfold cidrIPMatch
  cases env.parseCIDR c with
  | none => exact fun _ hx => hx
  | some contains =>
    exact foldOr_snd_superset (fun kv => contains kv.1) ipmap (false, tgt)

/-- When every member of the list exists in the site table, the flag
computed by `groupLoop` is the starting flag ORed with whether any
member's CIDR matches a local IP. -/
theorem groupLoop_fst_all_present (sites : SiteNames) (env : MatchEnv)
    (ipmap : IpMap) (slist : List String) (b : Bool) (tgt : List String)
    (h : ∀ n ∈ slist, (List.lookup n sites).isSome) :
    (groupLoop sites env ipmap slist b tgt).1 =
      (b || slist.any (siteTest sites env ipmap)) := by
  induction slist generalizing b tgt with
  | nil => simp [groupLoop]
  | cons n rest ih =>
    have hn := h n (List.mem_cons_self n rest)
    obtain ⟨c, hc⟩ := Option.isSome_iff_exists.1 hn
    simp only [groupLoop, hc, List.any_cons]
    rw [ih _ _ (fun m hm => h m (List.mem_cons_of_mem n hm))]
    simp only [siteTest, hc, cidrIPMatch_fst]
    cases b <;> cases cidrTest env c ipmap <;> simp

/-- When some member of the list is missing from the site table,
`groupLoop` reports no match. -/
theorem groupLoop_fst_missing (sites : SiteNames) (env : MatchEnv)
    (ipmap : IpMap) (slist : List String) (b : Bool) (tgt : List String)
    (h : ∃ n ∈ slist, List.lookup n sites = none) :
    (groupLoop sites env ipmap slist b tgt).1 = false := by
  induction slist generalizing b tgt with
  | nil => simp at h
  | cons n rest ih =>
    cases hn : List.lookup n sites with
    | none => simp [groupLoop, hn]
    | some c =>
      simp only [groupLoop, hn]
      apply ih
      rcases h with ⟨m, hm, hmn⟩
      rcases List.mem_cons.1 hm with rfl | hm
      · rw [hn] at hmn; cases hmn
      · exact ⟨m, hm, hmn⟩

/-- The second component of `subChecked` in closed form. -/
theorem subChecked_snd (a b : Nat) (good : Bool) :
    (subChecked a b good).2 = (decide (a ≤ b) && good) := by
  unfold subChecked
  by_cases h : a ≤ b <;> simp [h]

/-- The validity flag of `Delta` holds exactly when all four counters are
monotone; it does not depend on the timestamps. -/
theorem delta_good_iff (oldst newst : DevStat) :
    (Delta oldst newst).2 = true ↔
      (oldst.RBytes ≤ newst.RBytes ∧ oldst.TBytes ≤ newst.TBytes ∧
       oldst.RPackets ≤ newst.RPackets ∧ oldst.TPackets ≤ newst.TPackets) := by
  simp only [Delta, subChecked_snd]
  by_cases h1 : oldst.RBytes ≤ newst.RBytes <;>
    by_cases h2 : oldst.TBytes ≤ newst.TBytes <;>
      by_cases h3 : oldst.RPackets ≤ newst.RPackets <;>
        by_cases h4 : oldst.TPackets ≤ newst.TPackets <;>
          simp [h1, h2, h3, h4]

/-- Claim C1: for every pair of device stats in which each of the four
counter fields of the current stat is at least the corresponding field of
the prior stat, `Delta` returns a result marked valid whose RBytes, TBytes,
RPackets and TPackets each equal exactly the field-wise difference. -/
theorem Delta_valid_of_monotone (oldst newst : DevStat)
    (h1 : oldst.RBytes ≤ newst.RBytes) (h2 : oldst.TBytes ≤ newst.TBytes)
    (h3 : oldst.RPackets ≤ newst.RPackets)
    (h4 : oldst.TPackets ≤ newst.TPackets) :
    (Delta oldst newst).2 = true ∧
      (Delta oldst newst).1.RBytes = newst.RBytes - oldst.RBytes ∧
      (Delta oldst newst).1.TBytes = newst.TBytes - oldst.TBytes ∧
      (Delta oldst newst).1.RPackets = newst.RPackets - oldst.RPackets ∧
      (Delta oldst newst).1.TPackets = newst.TPackets - oldst.TPackets := by
  simp [Delta, subChecked, h1, h2, h3, h4]

/-- Witness for C1 at a concrete pair of stats. -/
theorem Delta_valid_of_monotone_witness :
    (Delta ⟨0, 1, 2, 3, 4⟩ ⟨5, 10, 20, 30, 40⟩).2 = true ∧
      (Delta ⟨0, 1, 2, 3, 4⟩ ⟨5, 10, 20, 30, 40⟩).1.RBytes = 10 - 1 ∧
      (Delta ⟨0, 1, 2, 3, 4⟩ ⟨5, 10, 20, 30, 40⟩).1.TBytes = 20 - 2 ∧
      (Delta ⟨0, 1, 2, 3, 4⟩ ⟨5, 10, 20, 30, 40⟩).1.RPackets = 30 - 3 ∧
      (Delta ⟨0, 1, 2, 3, 4⟩ ⟨5, 10, 20, 30, 40⟩).1.TPackets = 40 - 4 :=
  Delta_valid_of_monotone ⟨0, 1, 2, 3, 4⟩ ⟨5, 10, 20, 30, 40⟩
    (by decide) (by decide) (by decide) (by decide)

/-- Claim C2: for every pair of device stats in which at least one of the
four counter fields of the current stat is strictly below the corresponding
prior field, `Delta` returns a result marked invalid, regardless of the
other three fields. -/
theorem Delta_invalid_of_decrease (oldst newst : DevStat)
    (h : newst.RBytes < oldst.RBytes ∨ newst.TBytes < oldst.TBytes ∨
         newst.RPackets < oldst.RPackets ∨ newst.TPackets < oldst.TPackets) :
    (Delta oldst newst).2 = false := by
  rcases Bool.eq_false_or_eq_true (Delta oldst newst).2 with hg | hg
  · rcases (delta_good_iff oldst newst).1 hg with ⟨g1, g2, g3, g4⟩
    rcases h with h | h | h | h <;> omega
  · exact hg

/-- Witness for C2 at a concrete pair of stats (only TPackets decreased). -/
theorem Delta_invalid_of_decrease_witness :
    (Delta ⟨0, 1, 2, 3, 4⟩ ⟨5, 10, 20, 30, 1⟩).2 = false :=
  Delta_invalid_of_decrease ⟨0, 1, 2, 3, 4⟩ ⟨5, 10, 20, 30, 1⟩
    (by decide)

/-- Claim C9: the elapsed-time field of `Delta`'s result is always the
difference of the two capture times, computed unconditionally (also for
invalid results). -/
theorem Delta_elapsed_unconditional (oldst newst : DevStat) :
    (Delta oldst newst).1.Delta = newst.When - oldst.When := rfl

/-- Claim C6, counterexample: a pair of snapshots taken at the same instant
(elapsed time zero) with monotone counters yields a delta that is marked
valid, and `genDeltas` keeps the device rather than skipping it, so the
rate computation goes on to divide by the zero elapsed time. -/
theorem zero_elapsed_not_skipped_counterexample :
    (Delta ⟨7, 5, 5, 5, 5⟩ ⟨7, 9, 9, 9, 9⟩).1.Delta = 0 ∧
      (Delta ⟨7, 5, 5, 5, 5⟩ ⟨7, 9, 9, 9, 9⟩).2 = true ∧
      genDeltas [("eth0", ⟨7, 5, 5, 5, 5⟩)] [("eth0", ⟨7, 9, 9, 9, 9⟩)] =
        [("eth0", (Delta ⟨7, 5, 5, 5, 5⟩ ⟨7, 9, 9, 9, 9⟩).1)] := by
  refine ⟨rfl, rfl, ?_⟩
  simp [genDeltas, Delta, subChecked, List.filterMap]

/-- Claim C6, amended: the validity flag of a delta depends only on the
four counter fields and ignores the elapsed time entirely, so a delta with
zero or negative elapsed time is not treated as invalid and is not skipped;
there is no guard before the division by the elapsed time. -/
theorem Delta_good_ignores_elapsed (oldst newst : DevStat) :
    (Delta oldst newst).2 = true ↔
      (oldst.RBytes ≤ newst.RBytes ∧ oldst.TBytes ≤ newst.TBytes ∧
       oldst.RPackets ≤ newst.RPackets ∧ oldst.TPackets ≤ newst.TPackets) :=
  delta_good_iff oldst newst

/-- Claim C3, counterexample: a device present in both snapshots whose
delta is valid (all counters monotone) is nonetheless absent from the
`genDeltas` result when its current received-byte counter is zero: the
inactivity filter is applied inside the diff engine itself. -/
theorem genDeltas_inactivity_counterexample :
    (Delta ⟨0, 0, 3, 4, 5⟩ ⟨9, 0, 3, 4, 5⟩).2 = true ∧
      List.lookup "lo" [("lo", (⟨0, 0, 3, 4, 5⟩ : DevStat))] =
        some ⟨0, 0, 3, 4, 5⟩ ∧
      List.lookup "lo" [("lo", (⟨9, 0, 3, 4, 5⟩ : DevStat))] =
        some ⟨9, 0, 3, 4, 5⟩ ∧
      genDeltas [("lo", ⟨0, 0, 3, 4, 5⟩)] [("lo", ⟨9, 0, 3, 4, 5⟩)] = [] := by
  refine ⟨rfl, ?_, ?_, ?_⟩ <;> simp [genDeltas, List.filterMap]

/-- Claim C3, amended: the `genDeltas` map holds an entry for a device
exactly when the device is present in the current snapshot with a nonzero
received-byte counter, present in the prior snapshot, and its delta is
valid; newly appeared devices, disappeared devices, invalid deltas and
devices the engine's own inactivity filter rejects are all absent. -/
theorem genDeltas_mem_iff (oldinfo newinfo : Stats) (dev : String)
    (dd : DevDelta) :
    (dev, dd) ∈ genDeltas oldinfo newinfo ↔
      ∃ nv, (dev, nv) ∈ newinfo ∧ nv.RBytes ≠ 0 ∧
        ∃ ov, List.lookup dev oldinfo = some ov ∧
          (Delta ov nv).2 = true ∧ (Delta ov nv).1 = dd := by
  unfold genDeltas
  rw [List.mem_filterMap]
  constructor
  · rintro ⟨⟨d, nv⟩, hmem, hf⟩
    simp only at hf
    by_cases hz : nv.RBytes = 0
    · simp [hz] at hf
    · simp only [hz, if_false] at hf
      cases hov : List.lookup d oldinfo with
      | none => rw [hov] at hf; simp at hf
      | some ov =>
        rw [hov] at hf
        simp only at hf
        by_cases hg : (Delta ov nv).2
        · simp only [hg, if_true, Option.some.injEq, Prod.mk.injEq] at hf
          obtain ⟨hd, hdd⟩ := hf
          subst hd
          exact ⟨nv, hmem, hz, ov, hov, hg, hdd⟩
        · simp [hg] at hf
  · rintro ⟨nv, hmem, hz, ov, hov, hg, hdd⟩
    refine ⟨(dev, nv), hmem, ?_⟩
    simp only [hz, if_false, hov, hg, if_true, hdd]

/-- A small concrete environment: only the CIDR "127.0.0.0/8" parses, and
it contains exactly the address "127.0.0.1". -/
def xEnv : MatchEnv where
  glob := fun _ _ => false
  parseIP := fun _ => none
  parseCIDR := fun s =>
    if s == "127.0.0.0/8" then some (fun ip => ip == "127.0.0.1") else none
  hostAddrs := none

/-- A concrete site table with the single site "a". -/
def xSites : SiteNames := [("a", "127.0.0.0/8")]

/-- A concrete group table whose group "g" names the existing site "a" and
then the missing site "b". -/
def xGroups : MultiNames := [("g", ["a", "b"])]

/-- A concrete IP map: the loopback address belongs to device "lo". -/
def xIpmap : IpMap := [("127.0.0.1", ["lo"])]

/-- Claim C7, counterexample: for the group token "g" = [a, b] where site
"a" exists and its CIDR matches the local IP of device "lo" but site "b"
is missing from the table, matchNetNames reports no match (false) even
though at least one member's CIDR matches a local IP, refuting the claimed
if-and-only-if. -/
theorem matchNetNames_missing_member_counterexample :
    matchNetNames xSites xGroups xEnv "g" xIpmap [] = (false, ["lo"]) ∧
      List.lookup "g" xGroups = some ["a", "b"] ∧
      List.lookup "a" xSites = some "127.0.0.0/8" ∧
      List.lookup "b" xSites = none ∧
      cidrTest xEnv "127.0.0.0/8" xIpmap = true := by
  refine ⟨?_, rfl, rfl, rfl, rfl⟩
  decide

/-- Claim C7, amended: for a group token, when every referenced member
exists in the site table, overall match success holds exactly when at
least one member's CIDR matches a local IP (logical OR, not AND); when
some referenced member is missing, the group reports no match (false)
without raising an error — even if an earlier member's CIDR matched. -/
theorem matchNetNames_group_semantics (sites : SiteNames)
    (groups : MultiNames) (env : MatchEnv) (ipmap : IpMap)
    (tgt : List String) (g : String) (slist : List String)
    (hs : List.lookup g sites = none)
    (hg : List.lookup g groups = some slist) :
    ((∀ n ∈ slist, (List.lookup n sites).isSome) →
      (matchNetNames sites groups env g ipmap tgt).1 =
        slist.any (siteTest sites env ipmap)) ∧
    ((∃ n ∈ slist, List.lookup n sites = none) →
      (matchNetNames sites groups env g ipmap tgt).1 = false) := by
  simp only [matchNetNames, hs, hg]
  constructor
  · intro h
    simpa using groupLoop_fst_all_present sites env ipmap slist false tgt h
  · intro h
    exact groupLoop_fst_missing sites env ipmap slist false tgt h

/-- Witness for the amended C7 at the concrete tables. -/
theorem matchNetNames_group_semantics_witness :
    ((∀ n ∈ ["a", "b"], (List.lookup n xSites).isSome) →
      (matchNetNames xSites xGroups xEnv "g" xIpmap []).1 =
        (["a", "b"]).any (siteTest xSites xEnv xIpmap)) ∧
    ((∃ n ∈ ["a", "b"], List.lookup n xSites = none) →
      (matchNetNames xSites xGroups xEnv "g" xIpmap []).1 = false) :=
  matchNetNames_group_semantics xSites xGroups xEnv xIpmap [] "g" ["a", "b"]
    (by decide) (by decide)

/-- groupLoop through an all-present prefix followed by a missing member
returns false together with the set as mutated by the prefix. -/
theorem groupLoop_prefix_missing (sites : SiteNames) (env : MatchEnv)
    (ipmap : IpMap) (bad : String) (rest : List String)
    (hbad : List.lookup bad sites = none) (pre : List String) (b : Bool)
    (tgt : List String) (hpre : ∀ n ∈ pre, (List.lookup n sites).isSome) :
    groupLoop sites env ipmap (pre ++ bad :: rest) b tgt =
      (false, groupFold sites env ipmap pre tgt) := by
  induction pre generalizing b tgt with
  | nil => simp [groupLoop, groupFold, hbad]
  | cons n pre ih =>
    obtain ⟨c, hc⟩ :=
      Option.isSome_iff_exists.1 (hpre n (List.mem_cons_self n pre))
    simp only [List.cons_append, groupLoop, hc, groupFold, List.foldl_cons]
    exact ih _ _ (fun m hm => hpre m (List.mem_cons_of_mem n hm))

/-- groupFold only grows the target set. -/
theorem groupFold_superset (sites : SiteNames) (env : MatchEnv)
    (ipmap : IpMap) (pre : List String) (tgt : List String) :
    tgt ⊆ groupFold sites env ipmap pre tgt := by
  induction pre generalizing tgt with
  | nil => exact fun _ hx => hx
  | cons n pre ih =>
    simp only [groupFold, List.foldl_cons]
    cases hn : List.lookup n sites with
    | none => exact ih tgt
    | some c =>
      exact (cidrIPMatch_superset env c ipmap tgt).trans
        (ih ((cidrIPMatch env c ipmap tgt).2))

/-- Claim C10: calling matchNetNames on a group whose member list is an
all-present prefix followed by a missing member returns false, and the
returned target set is exactly the caller's set extended by the CIDR
matches of the prefix members — the additions made before the failure are
not rolled back, and the caller's set is preserved. -/
theorem matchNetNames_no_rollback (sites : SiteNames) (groups : MultiNames)
    (env : MatchEnv) (ipmap : IpMap) (tgt : List String) (g bad : String)
    (pre rest : List String)
    (hs : List.lookup g sites = none)
    (hg : List.lookup g groups = some (pre ++ bad :: rest))
    (hpre : ∀ n ∈ pre, (List.lookup n sites).isSome)
    (hbad : List.lookup bad sites = none) :
    matchNetNames sites groups env g ipmap tgt =
      (false, groupFold sites env ipmap pre tgt) ∧
    tgt ⊆ (matchNetNames sites groups env g ipmap tgt).2 := by
  have he : matchNetNames sites groups env g ipmap tgt =
      (false, groupFold sites env ipmap pre tgt) := by
    simp only [matchNetNames, hs, hg]
    exact groupLoop_prefix_missing sites env ipmap bad rest hbad pre false
      tgt hpre
  refine ⟨he, ?_⟩
  rw [he]
  exact groupFold_superset sites env ipmap pre tgt

/-- Witness for C10 at the concrete tables: member "a" of group "g" adds
device "lo" before the missing member "b" aborts the group, and "lo" stays
in the returned set. -/
theorem matchNetNames_no_rollback_witness :
    (matchNetNames xSites xGroups xEnv "g" xIpmap [] =
      (false, groupFold xSites xEnv xIpmap ["a"] []) ∧
    ([] : List String) ⊆ (matchNetNames xSites xGroups xEnv "g" xIpmap []).2)
      ∧ groupFold xSites xEnv xIpmap ["a"] [] = ["lo"] :=
  ⟨matchNetNames_no_rollback xSites xGroups xEnv xIpmap [] "g" "b" ["a"] []
    (by decide) (by decide) (by decide) (by decide), by decide⟩

/-- The spec-side description of the cascade: an ordered list of strategies
(each mapping the target set to a match flag and updated set) is tried in
order, the first one reporting a match wins and ends the cascade, and a
token for which every strategy fails yields `none`. -/
def firstWins :
    List (List String → Bool × List String) → List String →
      Option (List String)
  | [], _ => none
  | st :: rest, nk =>
    let r := st nk
    if r.1 then some r.2 else firstWins rest r.2

/-- The exact-device-name strategy: the token is a key of the stats map. -/
def exactStrategy (oldst : Stats) (k : String) :
    List String → Bool × List String :=
  fun nk =>
    if (List.lookup k oldst).isSome then (true, nk.insert k) else (false, nk)

/-- The seven strategies in the order mandated by the spec: exact device
name, "me", symbolic site/group name, glob over device names, exact IP,
CIDR block, glob over IP strings. -/
def strategyList (sites : SiteNames) (groups : MultiNames) (env : MatchEnv)
    (ipmap : IpMap) (oldst : Stats) (devs : List String) (k : String) :
    List (List String → Bool × List String) :=
  [exactStrategy oldst k,
   matchMe env k ipmap,
   matchNetNames sites groups env k ipmap,
   globMatch env k devs,
   ipMatch env k ipmap,
   cidrIPMatch env k ipmap,
   globIPMatch env k ipmap]

/-- Claim C4: resolving one token is exactly the first-success-wins cascade
over the seven strategies in the mandated order (so no later strategy runs
once one matches), and a token on which the whole cascade fails makes the
resolution of the device list fatal (`none`). -/
theorem tryToken_eq_firstWins (sites : SiteNames) (groups : MultiNames)
    (env : MatchEnv) (ipmap : IpMap) (oldst : Stats) (devs : List String)
    (k : String) (nk : List String) :
    tryToken sites groups env ipmap oldst devs k nk =
      firstWins (strategyList sites groups env ipmap oldst devs k) nk ∧
    (firstWins (strategyList sites groups env ipmap oldst devs k) nk =
        none →
      ∀ rest exlist,
        expandDevListFrom sites groups env ipmap oldst devs (k :: rest) nk
          exlist = none) := by
  have key : tryToken sites groups env ipmap oldst devs k nk =
      firstWins (strategyList sites groups env ipmap oldst devs k) nk := by
    by_cases h0 : (List.lookup k oldst).isSome <;>
      simp [tryToken, firstWins, strategyList, exactStrategy, h0]
  refine ⟨key, ?_⟩
  intro hnone rest exlist
  simp only [expandDevListFrom, processTokens, key, hnone]

/-- Witness for C4: with the concrete environment, a token matching
nothing resolves through the cascade to `none` and the list resolution is
fatal. -/
theorem tryToken_eq_firstWins_witness :
    tryToken xSites xGroups xEnv xIpmap [] ["lo"] "nope" [] =
      firstWins (strategyList xSites xGroups xEnv xIpmap [] ["lo"] "nope")
        [] ∧
    expandDevListFrom xSites xGroups xEnv xIpmap [] ["lo"] ["nope"] [] [] =
      none :=
  ⟨(tryToken_eq_firstWins xSites xGroups xEnv xIpmap [] ["lo"] "nope" []).1,
   (tryToken_eq_firstWins xSites xGroups xEnv xIpmap [] ["lo"] "nope" []).2
     (by decide) [] []⟩

theorem lookup_subset_ipVals (ipmap : IpMap) (a : String) (v : List String)
    (h : List.lookup a ipmap = some v) : ∀ d ∈ v, d ∈ ipVals ipmap := by
  induction ipmap with
  | nil => simp [List.lookup] at h
  | cons kv rest ih =>
    simp only [List.lookup] at h
    by_cases hk : (a == kv.1) = true
    · rw [hk] at h
      simp only [Option.some.injEq] at h
      subst h
      intro d hd
      simp only [ipVals, List.mem_append]
      exact Or.inl hd
    · rw [Bool.not_eq_true] at hk
      rw [hk] at h
      intro d hd
      simp only [ipVals, List.mem_append]
      exact Or.inr (ih h d hd)

theorem mem_keys_of_lookup_isSome (oldst : Stats) (a : String)
    (h : (List.lookup a oldst).isSome) : a ∈ statsKeys oldst := by
  induction oldst with
  | nil => simp [List.lookup] at h
  | cons kv rest ih =>
    simp only [List.lookup] at h
    by_cases hk : (a == kv.1) = true
    · have hak : a = kv.1 := by simpa using hk
      simp [statsKeys, hak]
    · rw [Bool.not_eq_true] at hk
      rw [hk] at h
      simp only [statsKeys, List.map_cons, List.mem_cons]
      exact Or.inr (ih h)

theorem meFold_subset (ipmap : IpMap) (addrs : List String)
    (S : List String) (hips : ∀ d ∈ ipVals ipmap, d ∈ S) :
    ∀ acc : Bool × List String, acc.2 ⊆ S →
      (addrs.foldl
        (fun acc a =>
          match List.lookup a ipmap with
          | some v => (true, addlist acc.2 v)
          | none => acc)
        acc).2 ⊆ S := by
  induction addrs with
  | nil => intro acc hacc; simpa using hacc
  | cons a addrs ih =>
    intro acc hacc
    simp only [List.foldl_cons]
    cases hl : List.lookup a ipmap with
    | none => simp only [hl]; exact ih acc hacc
    | some v =>
      simp only [hl]
      exact ih (true, addlist acc.2 v)
        (addlist_subset acc.2 v S hacc
          (fun d hd => hips d (lookup_subset_ipVals ipmap a v hl d hd)))

theorem meFold_nodup (ipmap : IpMap) (addrs : List String) :
    ∀ acc : Bool × List String, acc.2.Nodup →
      (addrs.foldl
        (fun acc a =>
          match List.lookup a ipmap with
          | some v => (true, addlist acc.2 v)
          | none => acc)
        acc).2.Nodup := by
  induction addrs with
  | nil => intro acc hacc; simpa using hacc
  | cons a addrs ih =>
    intro acc hacc
    simp only [List.foldl_cons]
    cases hl : List.lookup a ipmap with
    | none => simp only [hl]; exact ih acc hacc
    | some v =>
      simp only [hl]
      exact ih (true, addlist acc.2 v) (addlist_nodup acc.2 v hacc)

theorem matchMe_snd_subset (env : MatchEnv) (k : String) (ipmap : IpMap)
    (tgt S : List String) (htgt : tgt ⊆ S)
    (hips : ∀ d ∈ ipVals ipmap, d ∈ S) :
    (matchMe env k ipmap tgt).2 ⊆ S := by
  unfold matchMe
  by_cases hk : k = "me"
  · rw [if_neg (fun h => h hk)]
    cases env.hostAddrs with
    | none => exact htgt
    | some addrs => exact meFold_subset ipmap addrs S hips (false, tgt) htgt
  · rw [if_pos hk]
    exact htgt

theorem matchMe_snd_nodup (env : MatchEnv) (k : String) (ipmap : IpMap)
    (tgt : List String) (htgt : tgt.Nodup) :
    (matchMe env k ipmap tgt).2.Nodup := by
  unfold matchMe
  by_cases hk : k = "me"
  · rw [if_neg (fun h => h hk)]
    cases env.hostAddrs with
    | none => exact htgt
    | some addrs => exact meFold_nodup ipmap addrs (false, tgt) htgt
  · rw [if_pos hk]
    exact htgt

theorem foldOr_snd_subset (p : String × List String → Bool) (l : IpMap)
    (S : List String) (hips : ∀ d ∈ ipVals l, d ∈ S) :
    ∀ acc : Bool × List String, acc.2 ⊆ S →
      (l.foldl
        (fun acc kv => if p kv then (true, addlist acc.2 kv.2) else acc)
        acc).2 ⊆ S := by
  induction l with
  | nil => intro acc hacc; simpa using hacc
  | cons kv l ih =>
    have hipl : ∀ d ∈ ipVals l, d ∈ S := by
      intro d hd
      exact hips d (by simp only [ipVals, List.mem_append]; exact Or.inr hd)
    have hipkv : ∀ d ∈ kv.2, d ∈ S := by
      intro d hd
      exact hips d
        (by simp only [ipVals, List.mem_append]
            exact Or.inl hd)
    intro acc hacc
    simp only [List.foldl_cons]
    by_cases h : p kv = true
    · simp only [h, if_true]
      exact ih hipl (true, addlist acc.2 kv.2)
        (addlist_subset acc.2 kv.2 S hacc hipkv)
    · rw [Bool.not_eq_true] at h
      simp only [h, Bool.false_eq_true, if_false]
      exact ih hipl acc hacc

theorem foldOr_snd_nodup (p : String × List String → Bool) (l : IpMap) :
    ∀ acc : Bool × List String, acc.2.Nodup →
      (l.foldl
        (fun acc kv => if p kv then (true, addlist acc.2 kv.2) else acc)
        acc).2.Nodup := by
  induction l with
  | nil => intro acc hacc; simpa using hacc
  | cons kv l ih =>
    intro acc hacc
    simp only [List.foldl_cons]
    by_cases h : p kv = true
    · simp only [h, if_true]
      exact ih (true, addlist acc.2 kv.2) (addlist_nodup acc.2 kv.2 hacc)
    · rw [Bool.not_eq_true] at h
      simp only [h, Bool.false_eq_true, if_false]
      exact ih acc hacc

theorem cidrIPMatch_snd_subset (env : MatchEnv) (c : String) (ipmap : IpMap)
    (tgt S : List String) (htgt : tgt ⊆ S)
    (hips : ∀ d ∈ ipVals ipmap, d ∈ S) :
    (cidrIPMatch env c ipmap tgt).2 ⊆ S := by
  unfold cidrIPMatch
  cases env.parseCIDR c with
  | none => exact htgt
  | some contains =>
    exact foldOr_snd_subset (fun kv => contains kv.1) ipmap S hips
      (false, tgt) htgt

theorem cidrIPMatch_snd_nodup (env : MatchEnv) (c : String) (ipmap : IpMap)
    (tgt : List String) (htgt : tgt.Nodup) :
    (cidrIPMatch env c ipmap tgt).2.Nodup := by
  unfold cidrIPMatch
  cases env.parseCIDR c with
  | none => exact htgt
  | some contains =>
    exact foldOr_snd_nodup (fun kv => contains kv.1) ipmap (false, tgt) htgt

theorem globIPMatch_snd_subset (env : MatchEnv) (k : String) (ipmap : IpMap)
    (tgt S : List String) (htgt : tgt ⊆ S)
    (hips : ∀ d ∈ ipVals ipmap, d ∈ S) :
    (globIPMatch env k ipmap tgt).2 ⊆ S := by
  unfold globIPMatch
  exact foldOr_snd_subset (fun kv => env.glob k kv.1) ipmap S hips
    (false, tgt) htgt

theorem globIPMatch_snd_nodup (env : MatchEnv) (k : String) (ipmap : IpMap)
    (tgt : List String) (htgt : tgt.Nodup) :
    (globIPMatch env k ipmap tgt).2.Nodup := by
  unfold globIPMatch
  exact foldOr_snd_nodup (fun kv => env.glob k kv.1) ipmap (false, tgt) htgt

theorem ipMatch_snd_subset (env : MatchEnv) (k : String) (ipmap : IpMap)
    (tgt S : List String) (htgt : tgt ⊆ S)
    (hips : ∀ d ∈ ipVals ipmap, d ∈ S) :
    (ipMatch env k ipmap tgt).2 ⊆ S := by
  unfold ipMatch
  cases env.parseIP k with
  | none => exact htgt
  | some ipstr =>
    cases hl : List.lookup ipstr ipmap with
    | none => simp only [hl]; exact htgt
    | some v =>
      simp only [hl]
      exact addlist_subset tgt v S htgt
        (fun d hd => hips d (lookup_subset_ipVals ipmap ipstr v hl d hd))

theorem ipMatch_snd_nodup (env : MatchEnv) (k : String) (ipmap : IpMap)
    (tgt : List String) (htgt : tgt.Nodup) :
    (ipMatch env k ipmap tgt).2.Nodup := by
  unfold ipMatch
  cases env.parseIP k with
  | none => exact htgt
  | some ipstr =>
    cases hl : List.lookup ipstr ipmap with
    | none => simp only [hl]; exact htgt
    | some v =>
      simp only [hl]
      exact addlist_nodup tgt v htgt

theorem globFold_subset (env : MatchEnv) (k : String) (S : List String) :
    ∀ netdevs : List String, (∀ d ∈ netdevs, d ∈ S) →
      ∀ acc : Bool × List String, acc.2 ⊆ S →
        (netdevs.foldl
          (fun acc dev =>
            if env.glob k dev then (true, acc.2.insert dev) else acc)
          acc).2 ⊆ S := by
  intro netdevs
  induction netdevs with
  | nil => intro _ acc hacc; simpa using hacc
  | cons dev netdevs ih =>
    intro hdevs acc hacc
    simp only [List.foldl_cons]
    by_cases h : env.glob k dev = true
    · simp only [h, if_true]
      refine ih (fun d hd => hdevs d (List.mem_cons_of_mem dev hd))
        (true, acc.2.insert dev) ?_
      intro x hx
      rcases List.mem_insert_iff.1 hx with heq | hx2
      · rw [heq]; exact hdevs dev (List.mem_cons_self dev netdevs)
      · exact hacc hx2
    · rw [Bool.not_eq_true] at h
      simp only [h, Bool.false_eq_true, if_false]
      exact ih (fun d hd => hdevs d (List.mem_cons_of_mem dev hd)) acc hacc

theorem globMatch_snd_subset (env : MatchEnv) (k : String)
    (netdevs : List String) (tgt S : List String) (htgt : tgt ⊆ S)
    (hdevs : ∀ d ∈ netdevs, d ∈ S) :
    (globMatch env k netdevs tgt).2 ⊆ S := by
  unfold globMatch
  exact globFold_subset env k S netdevs hdevs (false, tgt) htgt

theorem globMatch_snd_nodup (env : MatchEnv) (k : String)
    (netdevs : List String) (tgt : List String) (htgt : tgt.Nodup) :
    (globMatch env k netdevs tgt).2.Nodup := by
  unfold globMatch
  suffices h : ∀ (nd : List String) (acc : Bool × List String), acc.2.Nodup →
      (nd.foldl
        (fun acc dev =>
          if env.glob k dev then (true, acc.2.insert dev) else acc)
        acc).2.Nodup by
    exact h netdevs (false, tgt) htgt
  intro nd
  induction nd with
  | nil => intro acc hacc; simpa using hacc
  | cons dev nd ih =>
    intro acc hacc
    simp only [List.foldl_cons]
    by_cases h : env.glob k dev = true
    · simp only [h, if_true]
      exact ih (true, acc.2.insert dev) hacc.insert
    · rw [Bool.not_eq_true] at h
      simp only [h, Bool.false_eq_true, if_false]
      exact ih acc hacc

theorem groupLoop_snd_subset (sites : SiteNames) (env : MatchEnv)
    (ipmap : IpMap) (S : List String)
    (hips : ∀ d ∈ ipVals ipmap, d ∈ S) :
    ∀ (slist : List String) (b : Bool) (tgt : List String), tgt ⊆ S →
      (groupLoop sites env ipmap slist b tgt).2 ⊆ S := by
  intro slist
  induction slist with
  | nil => intro b tgt htgt; exact htgt
  | cons n rest ih =>
    intro b tgt htgt
    simp only [groupLoop]
    cases List.lookup n sites with
    | none => exact htgt
    | some c =>
      exact ih _ _ (cidrIPMatch_snd_subset env c ipmap tgt S htgt hips)

theorem groupLoop_snd_nodup (sites : SiteNames) (env : MatchEnv)
    (ipmap : IpMap) :
    ∀ (slist : List String) (b : Bool) (tgt : List String), tgt.Nodup →
      (groupLoop sites env ipmap slist b tgt).2.Nodup := by
  intro slist
  induction slist with
  | nil => intro b tgt htgt; exact htgt
  | cons n rest ih =>
    intro b tgt htgt
    simp only [groupLoop]
    cases List.lookup n sites with
    | none => exact htgt
    | some c =>
      exact ih _ _ (cidrIPMatch_snd_nodup env c ipmap tgt htgt)

theorem matchNetNames_snd_subset (sites : SiteNames) (groups : MultiNames)
    (env : MatchEnv) (k : String) (ipmap : IpMap) (tgt S : List String)
    (htgt : tgt ⊆ S) (hips : ∀ d ∈ ipVals ipmap, d ∈ S) :
    (matchNetNames sites groups env k ipmap tgt).2 ⊆ S := by
  unfold matchNetNames
  cases List.lookup k sites with
  | some c => exact cidrIPMatch_snd_subset env c ipmap tgt S htgt hips
  | none =>
    cases List.lookup k groups with
    | some slist =>
      exact groupLoop_snd_subset sites env ipmap S hips slist false tgt htgt
    | none => exact htgt

theorem matchNetNames_snd_nodup (sites : SiteNames) (groups : MultiNames)
    (env : MatchEnv) (k : String) (ipmap : IpMap) (tgt : List String)
    (htgt : tgt.Nodup) :
    (matchNetNames sites groups env k ipmap tgt).2.Nodup := by
  unfold matchNetNames
  cases List.lookup k sites with
  | some c => exact cidrIPMatch_snd_nodup env c ipmap tgt htgt
  | none =>
    cases List.lookup k groups with
    | some slist =>
      exact groupLoop_snd_nodup sites env ipmap slist false tgt htgt
    | none => exact htgt

theorem tryToken_subset (sites : SiteNames) (groups : MultiNames)
    (env : MatchEnv) (ipmap : IpMap) (oldst : Stats) (devs : List String)
    (k : String) (nk : List String) (S : List String) (htgt : nk ⊆ S)
    (hips : ∀ d ∈ ipVals ipmap, d ∈ S)
    (hdevs : ∀ d ∈ devs, d ∈ S)
    (hkeys : ∀ d ∈ statsKeys oldst, d ∈ S) :
    ∀ s, tryToken sites groups env ipmap oldst devs k nk = some s →
      s ⊆ S := by
  intro s hs
  unfold tryToken at hs
  by_cases h0 : (List.lookup k oldst).isSome
  · simp only [h0, if_true, Option.some.injEq] at hs
    subst hs
    intro x hx
    rcases List.mem_insert_iff.1 hx with rfl | hx
    · exact hkeys x (mem_keys_of_lookup_isSome oldst x h0)
    · exact htgt hx
  · simp only [h0, Bool.false_eq_true, if_false] at hs
    have b1 := matchMe_snd_subset env k ipmap nk S htgt hips
    by_cases h1 : (matchMe env k ipmap nk).1 = true
    · simp only [h1, if_true, Option.some.injEq] at hs; subst hs; exact b1
    · rw [Bool.not_eq_true] at h1
      simp only [h1, Bool.false_eq_true, if_false] at hs
      have b2 := matchNetNames_snd_subset sites groups env k ipmap _ S b1 hips
      by_cases h2 :
          (matchNetNames sites groups env k ipmap
            (matchMe env k ipmap nk).2).1 = true
      · simp only [h2, if_true, Option.some.injEq] at hs; subst hs; exact b2
      · rw [Bool.not_eq_true] at h2
        simp only [h2, Bool.false_eq_true, if_false] at hs
        have b3 := globMatch_snd_subset env k devs _ S b2 hdevs
        by_cases h3 : (globMatch env k devs
            (matchNetNames sites groups env k ipmap
              (matchMe env k ipmap nk).2).2).1 = true
        · simp only [h3, if_true, Option.some.injEq] at hs
          subst hs; exact b3
        · rw [Bool.not_eq_true] at h3
          simp only [h3, Bool.false_eq_true, if_false] at hs
          have b4 := ipMatch_snd_subset env k ipmap _ S b3 hips
          by_cases h4 : (ipMatch env k ipmap (globMatch env k devs
              (matchNetNames sites groups env k ipmap
                (matchMe env k ipmap nk).2).2).2).1 = true
          · simp only [h4, if_true, Option.some.injEq] at hs
            subst hs; exact b4
          · rw [Bool.not_eq_true] at h4
            simp only [h4, Bool.false_eq_true, if_false] at hs
            have b5 := cidrIPMatch_snd_subset env k ipmap _ S b4 hips
            by_cases h5 : (cidrIPMatch env k ipmap
                (ipMatch env k ipmap (globMatch env k devs
                  (matchNetNames sites groups env k ipmap
                    (matchMe env k ipmap nk).2).2).2).2).1 = true
            · simp only [h5, if_true, Option.some.injEq] at hs
              subst hs; exact b5
            · rw [Bool.not_eq_true] at h5
              simp only [h5, Bool.false_eq_true, if_false] at hs
              have b6 := globIPMatch_snd_subset env k ipmap _ S b5 hips
              by_cases h6 : (globIPMatch env k ipmap (cidrIPMatch env k ipmap
                  (ipMatch env k ipmap (globMatch env k devs
                    (matchNetNames sites groups env k ipmap
                      (matchMe env k ipmap nk).2).2).2).2).2).1 = true
              · simp only [h6, if_true, Option.some.injEq] at hs
                subst hs; exact b6
              · rw [Bool.not_eq_true] at h6
                simp only [h6, Bool.false_eq_true, if_false] at hs
                cases hs

theorem tryToken_nodup (sites : SiteNames) (groups : MultiNames)
    (env : MatchEnv) (ipmap : IpMap) (oldst : Stats) (devs : List String)
    (k : String) (nk : List String) (htgt : nk.Nodup) :
    ∀ s, tryToken sites groups env ipmap oldst devs k nk = some s →
      s.Nodup := by
  intro s hs
  unfold tryToken at hs
  by_cases h0 : (List.lookup k oldst).isSome
  · simp only [h0, if_true, Option.some.injEq] at hs
    subst hs
    exact htgt.insert
  · simp only [h0, Bool.false_eq_true, if_false] at hs
    have b1 := matchMe_snd_nodup env k ipmap nk htgt
    by_cases h1 : (matchMe env k ipmap nk).1 = true
    · simp only [h1, if_true, Option.some.injEq] at hs; subst hs; exact b1
    · rw [Bool.not_eq_true] at h1
      simp only [h1, Bool.false_eq_true, if_false] at hs
      have b2 := matchNetNames_snd_nodup sites groups env k ipmap _ b1
      by_cases h2 :
          (matchNetNames sites groups env k ipmap
            (matchMe env k ipmap nk).2).1 = true
      · simp only [h2, if_true, Option.some.injEq] at hs; subst hs; exact b2
      · rw [Bool.not_eq_true] at h2
        simp only [h2, Bool.false_eq_true, if_false] at hs
        have b3 := globMatch_snd_nodup env k devs _ b2
        by_cases h3 : (globMatch env k devs
            (matchNetNames sites groups env k ipmap
              (matchMe env k ipmap nk).2).2).1 = true
        · simp only [h3, if_true, Option.some.injEq] at hs
          subst hs; exact b3
        · rw [Bool.not_eq_true] at h3
          simp only [h3, Bool.false_eq_true, if_false] at hs
          have b4 := ipMatch_snd_nodup env k ipmap _ b3
          by_cases h4 : (ipMatch env k ipmap (globMatch env k devs
              (matchNetNames sites groups env k ipmap
                (matchMe env k ipmap nk).2).2).2).1 = true
          · simp only [h4, if_true, Option.some.injEq] at hs
            subst hs; exact b4
          · rw [Bool.not_eq_true] at h4
            simp only [h4, Bool.false_eq_true, if_false] at hs
            have b5 := cidrIPMatch_snd_nodup env k ipmap _ b4
            by_cases h5 : (cidrIPMatch env k ipmap
                (ipMatch env k ipmap (globMatch env k devs
                  (matchNetNames sites groups env k ipmap
                    (matchMe env k ipmap nk).2).2).2).2).1 = true
            · simp only [h5, if_true, Option.some.injEq] at hs
              subst hs; exact b5
            · rw [Bool.not_eq_true] at h5
              simp only [h5, Bool.false_eq_true, if_false] at hs
              have b6 := globIPMatch_snd_nodup env k ipmap _ b5
              by_cases h6 : (globIPMatch env k ipmap (cidrIPMatch env k ipmap
                  (ipMatch env k ipmap (globMatch env k devs
                    (matchNetNames sites groups env k ipmap
                      (matchMe env k ipmap nk).2).2).2).2).2).1 = true
              · simp only [h6, if_true, Option.some.injEq] at hs
                subst hs; exact b6
              · rw [Bool.not_eq_true] at h6
                simp only [h6, Bool.false_eq_true, if_false] at hs
                cases hs

theorem processTokens_subset (sites : SiteNames) (groups : MultiNames)
    (env : MatchEnv) (ipmap : IpMap) (oldst : Stats) (devs : List String)
    (S : List String)
    (hips : ∀ d ∈ ipVals ipmap, d ∈ S)
    (hdevs : ∀ d ∈ devs, d ∈ S)
    (hkeys : ∀ d ∈ statsKeys oldst, d ∈ S) :
    ∀ (devices : List String) (nk : List String), nk ⊆ S →
      ∀ s, processTokens sites groups env ipmap oldst devs devices nk =
          some s → s ⊆ S := by
  intro devices
  induction devices with
  | nil =>
    intro nk hnk s hs
    simp only [processTokens, Option.some.injEq] at hs
    subst hs; exact hnk
  | cons k rest ih =>
    intro nk hnk s hs
    simp only [processTokens] at hs
    cases ht : tryToken sites groups env ipmap oldst devs k nk with
    | none => rw [ht] at hs; cases hs
    | some nk' =>
      rw [ht] at hs
      exact ih nk'
        (tryToken_subset sites groups env ipmap oldst devs k nk S hnk hips
          hdevs hkeys nk' ht) s hs

theorem processTokens_nodup (sites : SiteNames) (groups : MultiNames)
    (env : MatchEnv) (ipmap : IpMap) (oldst : Stats) (devs : List String) :
    ∀ (devices : List String) (nk : List String), nk.Nodup →
      ∀ s, processTokens sites groups env ipmap oldst devs devices nk =
          some s → s.Nodup := by
  intro devices
  induction devices with
  | nil =>
    intro nk hnk s hs
    simp only [processTokens, Option.some.injEq] at hs
    subst hs; exact hnk
  | cons k rest ih =>
    intro nk hnk s hs
    simp only [processTokens] at hs
    cases ht : tryToken sites groups env ipmap oldst devs k nk with
    | none => rw [ht] at hs; cases hs
    | some nk' =>
      rw [ht] at hs
      exact ih nk'
        (tryToken_nodup sites groups env ipmap oldst devs k nk hnk nk' ht)
        s hs

theorem eraseFold_subset (exlist : List String) (nk : List String) :
    exlist.foldl (fun s k => s.erase k) nk ⊆ nk := by
  induction exlist generalizing nk with
  | nil => exact fun _ hx => hx
  | cons k rest ih =>
    simp only [List.foldl_cons]
    exact (ih (nk.erase k)).trans (List.erase_subset k nk)

theorem eraseFold_nodup (exlist : List String) (nk : List String)
    (h : nk.Nodup) : (exlist.foldl (fun s k => s.erase k) nk).Nodup := by
  induction exlist generalizing nk with
  | nil => exact h
  | cons k rest ih =>
    simp only [List.foldl_cons]
    exact ih (nk.erase k) (h.erase k)

/-- Claim C5: whenever the resolver succeeds on a non-empty token list, the
returned device list has no duplicates, is sorted ascending, and (under the
data-model invariant that the snapshot's device names and the IP map's
device values are known interface names) every returned name is a known
interface name. -/
theorem expandDevList_postcondition (sites : SiteNames)
    (groups : MultiNames) (env : MatchEnv) (ipmap : IpMap) (oldst : Stats)
    (exlist devices : List String) (ifaces : List String)
    (l : List String) (_hdev : devices ≠ [])
    (hkeys : ∀ d ∈ statsKeys oldst, d ∈ ifaces)
    (hips : ∀ d ∈ ipVals ipmap, d ∈ ifaces)
    (hres : expandDevList sites groups env ipmap devices oldst exlist =
      some l) :
    l.Nodup ∧ l.Sorted (· ≤ ·) ∧ ∀ x ∈ l, x ∈ ifaces := by
  unfold expandDevList expandDevListFrom at hres
  cases hp : processTokens sites groups env ipmap oldst
      (statsMembers oldst) devices [] with
  | none => rw [hp] at hres; cases hres
  | some nk' =>
    rw [hp] at hres
    simp only [Option.some.injEq] at hres
    subst hres
    have hnk' : nk' ⊆ ifaces := by
      refine processTokens_subset sites groups env ipmap oldst
        (statsMembers oldst) ifaces hips ?_ hkeys devices []
        (List.nil_subset ifaces) nk' hp
      intro d hd
      refine hkeys d ?_
      simpa [statsMembers, members] using hd
    have hnd : nk'.Nodup :=
      processTokens_nodup sites groups env ipmap oldst
        (statsMembers oldst) devices [] List.nodup_nil nk' hp
    have hperm := List.perm_insertionSort (α := String) (· ≤ ·)
      (exlist.foldl (fun s k => s.erase k) nk')
    refine ⟨?_, ?_, ?_⟩
    · exact hperm.nodup_iff.2 (eraseFold_nodup exlist nk' hnd)
    · exact List.sorted_insertionSort (· ≤ ·)
        (exlist.foldl (fun s k => s.erase k) nk')
    · intro x hx
      have hx' : x ∈ exlist.foldl (fun s k => s.erase k) nk' :=
        hperm.mem_iff.1 hx
      exact hnk' (eraseFold_subset exlist nk' hx')

/-- Witness for C5 at a concrete invocation resolving the token
"127.0.0.0/8" through the CIDR strategy. -/
theorem expandDevList_postcondition_witness :
    (["lo"] : List String).Nodup ∧
      (["lo"] : List String).Sorted (· ≤ ·) ∧
      ∀ x ∈ (["lo"] : List String), x ∈ (["lo", "eth0"] : List String) :=
  expandDevList_postcondition xSites xGroups xEnv xIpmap
    [("eth0", ⟨0, 1, 1, 1, 1⟩)] [] ["127.0.0.0/8"] ["lo", "eth0"] ["lo"]
    (by decide) (by decide) (by decide) (by decide)

/-- Values already in signed-64-bit range are fixed by the wrap. -/
theorem wrap64_eq_self (x : Int) (h0 : 0 ≤ x)
    (h1 : x < 9223372036854775808) : wrap64 x = x := by
  unfold wrap64
  omega

/-- A concrete parser recognising only the token "10000000000". -/
def bigParse : String → Option Nat :=
  fun s => if s == "10000000000" then some 10000000000 else none

/-- Claim C8, counterexample: the trailing token "10000000000" parses as a
positive integer, yet the stored polling interval is not 10000000000
seconds: the 64-bit nanosecond conversion wraps to a negative duration
(and no fatal error is raised). -/
theorem trailingHack_overflow_counterexample :
    trailingHack bigParse ["10000000000"] second =
      some ([], -8446744073709551616) ∧
      (-8446744073709551616 : Int) ≠ second * 10000000000 := by
  constructor
  · decide
  · decide

/-- Claim C8, amended: when the token list is non-empty, its last token
parses as a positive integer `dur`, and `dur` seconds fit in a signed
64-bit nanosecond count, the trailing token is removed from the device
tokens and reinterpreted as the polling interval of `dur` seconds whenever
the current interval is the 1-second default or already equals `dur`
seconds; when the current interval differs from both (an explicit
conflicting `-d`), the conflict is the fatal usage error.  (An explicit
interval equal to the 1-second default is indistinguishable from the
default, and for larger `dur` the 64-bit conversion wraps, as the
counterexample shows.) -/
theorem trailingHack_behavior (parse : String → Option Nat)
    (args : List String) (duration : Int) (tok : String) (dur : Nat)
    (hlast : args.getLast? = some tok)
    (hparse : parse tok = some dur)
    (hpos : 0 < dur)
    (hfit : (dur : Int) * second < 9223372036854775808) :
    ((duration = second ∨ duration = second * (dur : Int)) →
      trailingHack parse args duration =
        some (args.dropLast, second * (dur : Int))) ∧
    (duration ≠ second → duration ≠ second * (dur : Int) →
      trailingHack parse args duration = none) := by
  have hd0 : (0 : Int) ≤ (dur : Int) := Int.natCast_nonneg dur
  have hdlt : (dur : Int) < 9223372036854775808 := by
    simp only [second] at hfit
    omega
  have hw1 : wrap64 (dur : Int) = (dur : Int) := wrap64_eq_self _ hd0 hdlt
  have hw2 : wrap64 (second * (dur : Int)) = second * (dur : Int) := by
    refine wrap64_eq_self _ ?_ ?_ <;> simp only [second] at hfit ⊢ <;> omega
  simp only [trailingHack, hlast, hparse, hpos, if_true, hw1, hw2]
  constructor
  · intro h
    rw [if_neg]
    rcases h with h | h
    · exact fun hc => hc.1 h
    · exact fun hc => hc.2 h
  · intro h1 h2
    rw [if_pos ⟨h1, h2⟩]

/-- A concrete parser recognising only the token "5". -/
def parse5 : String → Option Nat :=
  fun s => if s == "5" then some 5 else none

/-- Witness for the amended C8 at a concrete invocation: the default
1-second interval together with trailing token "5" becomes a 5-second
interval with the token dropped. -/
theorem trailingHack_behavior_witness :
    ((second = second ∨ second = second * ((5 : Nat) : Int)) →
      trailingHack parse5 ["eth0", "5"] second =
        some (["eth0"], second * ((5 : Nat) : Int))) ∧
    (second ≠ second → second ≠ second * ((5 : Nat) : Int) →
      trailingHack parse5 ["eth0", "5"] second = none) :=
  trailingHack_behavior parse5 ["eth0", "5"] second "5" 5
    (by decide) (by decide) (by decide) (by decide)

end Netvolmon
